import Mathlib

/-!
Shallow embedding of `app.py` (shift-signup calendar with bulletin board).

The Firestore document store is modelled as association lists keyed by
document id (events) or by the document key used in the code (day status is
keyed by the date string, month locks by the month id).  The Streamlit UI
actions of `show_calendar`, `show_board_and_info`, `show_admin_sidebar` and
`perform_aggregation` are modelled as pure state-transition functions on this
store: each function's guard structure mirrors the nesting of the `if`
statements in the Python source.
-/

namespace AsaKatsu

/-- `MAX_SHIFTS_PER_DAY = 3` (app.py line 45). -/
def MAX_SHIFTS_PER_DAY : Nat := 3

/-- A signup event document in the `events` collection:
`{'date', 'month_id', 'name', 'uid'}` (the server-generated `createdAt`
timestamp plays no role in any rule and is omitted).  `uid` is the
client-generated unique token (`uuid.uuid4()`), modelled as a `Nat`. -/
structure SignupEvent where
  date : String
  month_id : String
  name : String
  uid : Nat
deriving DecidableEq, Repr

/-- A `day_status` document: `{'isHeld', 'month_id'}`, keyed by the date
string (app.py line 170). -/
structure DayStatus where
  isHeld : Bool
  month_id : String
deriving DecidableEq, Repr

/-- A `bulletin_board` document: `{'month_id', 'name', 'message', 'timestamp'}`.
The server timestamp is modelled as seconds (an integer). -/
structure BoardMessage where
  month_id : String
  name : String
  message : String
  timestamp : Int
deriving DecidableEq, Repr

/-- The whole document store.  Events carry their Firestore document id
(a `Nat` here); day-status docs are keyed by date string and month locks by
month id, exactly the keys `document(...)` is called with in the code. -/
structure Store where
  events : List (Nat × SignupEvent)
  dayStatus : List (String × DayStatus)
  monthLocks : List (String × Bool)
  board : List BoardMessage
deriving DecidableEq, Repr

/-- `document(k).set(v)`: replace the document at key `k` with `v`
(creating it if absent). -/
def setDoc {α : Type} (l : List (String × α)) (k : String) (v : α) :
    List (String × α) :=
  (k, v) :: l.filter (fun p => !(p.1 == k))

/-- Zero-padding of `f"{n:02d}"`. -/
def pad2 (n : Nat) : String :=
  if n < 10 then "0" ++ toString n else toString n

/-- `date_str = f"{month_id}-{day:02d}"` (app.py line 160). -/
def dateStr (month_id : String) (day : Nat) : String :=
  month_id ++ "-" ++ pad2 day

/-- `day_status.get(date_str, {}).get('isHeld', False)` (app.py line 161):
a date is held iff a day-status document for that date exists and its
`isHeld` field is true. -/
def isHeld (s : Store) (date : String) : Bool :=
  match s.dayStatus.lookup date with
  | some d => d.isHeld
  | none => false

/-- `month_lock_doc.exists and month_lock_doc.to_dict().get('isLocked', False)`
(app.py line 70). -/
def isMonthLocked (s : Store) (month_id : String) : Bool :=
  match s.monthLocks.lookup month_id with
  | some b => b
  | none => false

/-- `day_events = [data for data in events.values() if data.get('date') == date_str]`
(app.py line 175), keeping the document ids alongside. -/
def dayEvents (s : Store) (date : String) : List (Nat × SignupEvent) :=
  s.events.filter (fun e => e.2.date == date)

/-- Number of signup events on a given date. -/
def countOn (s : Store) (date : String) : Nat :=
  (dayEvents s date).length

/-- `db.collection(EVENTS_COLLECTION).add(new_event)`: Firestore generates a
fresh document id; here the caller passes it in. -/
def addEvent (s : Store) (docId : Nat) (ev : SignupEvent) : Store :=
  { s with events := s.events ++ [(docId, ev)] }

/-- `is_already_in = any(e['name'] == st.session_state.user_name for e in day_events)`
(app.py line 209): the self-service duplicate-name guard. -/
def isAlreadyIn (day_events : List (Nat × SignupEvent)) (userName : String) :
    Bool :=
  day_events.any (fun e => e.2.name == userName)

/-- The non-admin "シフトに入る" button press (app.py lines 190-220).  The
button is only rendered when the day is held, the month is unlocked and the
day has fewer than `MAX_SHIFTS_PER_DAY` signups; pressing it adds an event
named after the session user unless the duplicate-name guard fires. -/
def selfAdd (s : Store) (month_id : String) (day : Nat) (userName : String)
    (docId uid : Nat) : Store :=
  if isHeld s (dateStr month_id day) && !isMonthLocked s month_id then
    if countOn s (dateStr month_id day) < MAX_SHIFTS_PER_DAY then
      if isAlreadyIn (dayEvents s (dateStr month_id day)) userName then s
      else addEvent s docId
        { date := dateStr month_id day, month_id := month_id,
          name := userName, uid := uid }
    else s
  else s

/-- The admin proxy-add form submit (app.py lines 190-205).  Rendered under
the same held/unlocked/capacity conditions; adds an event under the typed
name whenever it is non-empty, with no duplicate-name guard. -/
def adminAdd (s : Store) (month_id : String) (day : Nat) (addName : String)
    (docId uid : Nat) : Store :=
  if isHeld s (dateStr month_id day) && !isMonthLocked s month_id then
    if countOn s (dateStr month_id day) < MAX_SHIFTS_PER_DAY then
      if addName == "" then s
      else addEvent s docId
        { date := dateStr month_id day, month_id := month_id,
          name := addName, uid := uid }
    else s
  else s

/-- The "✖️" removal button for a displayed event (app.py lines 184-188).
The button exists only when the event's name equals the session user's name
or the viewer is an admin, and the month is unlocked; it deletes that
document. -/
def removeShift (s : Store) (month_id userName : String) (adminMode : Bool)
    (docId : Nat) : Store :=
  match s.events.lookup docId with
  | none => s
  | some ev =>
    if (ev.name == userName || adminMode) && !isMonthLocked s month_id then
      { s with events := s.events.filter (fun e => !(e.1 == docId)) }
    else s

/-- The admin per-day held checkbox (app.py lines 167-171): rendered
only in admin mode, disabled while the month is locked, and it writes only
when the new value differs from the current one. -/
def toggleHeld (s : Store) (month_id : String) (day : Nat) (adminMode : Bool)
    (newIsHeld : Bool) : Store :=
  if adminMode && !isMonthLocked s month_id &&
      !(newIsHeld == isHeld s (dateStr month_id day)) then
    { s with dayStatus :=
        (setDoc s.dayStatus (dateStr month_id day)
          { isHeld := newIsHeld, month_id := month_id }) }
  else s

/-- The bulletin-board post form submit (app.py lines 238-250).  All form
controls including the submit button are disabled while the month is locked;
both name and message must be non-empty. -/
def postMessage (s : Store) (month_id name message : String) (ts : Int) :
    Store :=
  if !isMonthLocked s month_id && !(name == "") && !(message == "") then
    { s with board :=
        { month_id := month_id, name := name, message := message,
          timestamp := ts } :: s.board }
  else s

/-- The admin sidebar lock / unlock button (app.py lines 295-303): only
rendered in admin mode; writes `{'isLocked': False}` when the month is
locked and `{'isLocked': True}` when it is not. -/
def toggleLock (s : Store) (month_id : String) (adminMode : Bool) : Store :=
  if adminMode then
    { s with monthLocks := setDoc s.monthLocks month_id (!isMonthLocked s month_id) }
  else s

/-- Seconds in `timedelta(weeks=2)`. -/
def twoWeeksSeconds : Int := 14 * 86400

/-- `cleanup_old_board_messages` (app.py lines 78-90): batch-deletes every
board message, in every month, whose `timestamp` is strictly earlier than
`datetime.now() - timedelta(weeks=2)`. -/
def cleanup_old_board_messages (s : Store) (now : Int) : Store :=
  { s with board :=
      s.board.filter (fun m => !(decide (m.timestamp < now - twoWeeksSeconds))) }

/-! ### Aggregation (`perform_aggregation`, app.py lines 314-342) -/

/-- A calendar date, the result of
`datetime.strptime(event['date'], '%Y-%m-%d').date()`. -/
structure Date where
  y : Nat
  m : Nat
  d : Nat
deriving DecidableEq, Repr

/-- Comparison of Python `date` objects: lexicographic on
(year, month, day). -/
def dateLe (a b : Date) : Bool :=
  decide (a.y < b.y) ||
    (a.y == b.y &&
      (decide (a.m < b.m) || (a.m == b.m && decide (a.d ≤ b.d))))

/-- Numeric value of a decimal digit character, `none` on a non-digit. -/
def digitVal (c : Char) : Option Nat :=
  if '0' ≤ c && c ≤ '9' then some (c.toNat - '0'.toNat) else none

/-- Parse a run of decimal digits, accumulator style. -/
def parseDigitsAux : List Char → Nat → Option Nat
  | [], acc => some acc
  | c :: cs, acc =>
    match digitVal c with
    | some v => parseDigitsAux cs (acc * 10 + v)
    | none => none

/-- Parse a non-empty run of decimal digits as a `Nat`. -/
def parseDigits : List Char → Option Nat
  | [] => none
  | c :: cs => parseDigitsAux (c :: cs) 0

/-- Split a character list at every occurrence of the separator, like
Python `str.split` with a one-character separator. -/
def splitOnChar (sep : Char) : List Char → List (List Char)
  | [] => [[]]
  | c :: cs =>
    match splitOnChar sep cs with
    | [] => if c == sep then [[], [c]] else [[c]]
    | p :: ps => if c == sep then [] :: p :: ps else (c :: p) :: ps

/-- `datetime.strptime(s, '%Y-%m-%d')`: split on `-`, parse the three
numeric fields, and validate the month and day ranges (strptime raises on an
out-of-range month or day; the day upper bound is approximated by 31, which
agrees with strptime on every date string the app itself can produce). -/
def strptimeDate (s : String) : Option Date :=
  match splitOnChar '-' s.toList with
  | [ys, ms, ds] =>
    match parseDigits ys, parseDigits ms, parseDigits ds with
    | some y, some m, some d =>
      if 1 ≤ m && m ≤ 12 && 1 ≤ d && d ≤ 31 then some ⟨y, m, d⟩ else none
    | _, _, _ => none
  | _ => none

/-- The event filter of `perform_aggregation` (app.py lines 320-324): keep an
event iff `start_date <= strptime(event['date']).date() <= end_date` and
`all_day_status.get(event['date'], {}).get('isHeld', False)`.  The scan is
over **all** events and **all** day-status documents, unscoped by month. -/
def filteredEvents (s : Store) (start_date end_date : Date) :
    List SignupEvent :=
  (s.events.map Prod.snd).filter (fun e =>
    match strptimeDate e.date with
    | some dt => dateLe start_date dt && dateLe dt end_date && isHeld s e.date
    | none => false)

/-- The `YYYY-MM` string of a month, as `str` of a pandas `Period('M')`. -/
def monthString (y m : Nat) : String :=
  toString y ++ "-" ++ pad2 m

/-- `df['month'] = pd.to_datetime(df['date']).dt.to_period('M')` for one
event: the `YYYY-MM` of its date. -/
def monthOf (e : SignupEvent) : String :=
  match strptimeDate e.date with
  | some dt => monthString dt.y dt.m
  | none => ""

/-- Lexicographic ≤ on character lists (Python string comparison is by
code point). -/
def charListLe : List Char → List Char → Bool
  | [], _ => true
  | _ :: _, [] => false
  | a :: as, b :: bs => if a == b then charListLe as bs else decide (a < b)

/-- Lexicographic ≤ on strings. -/
def strLe (a b : String) : Bool := charListLe a.toList b.toList

/-- Insert a string into a ≤-sorted list of strings, keeping it sorted. -/
def insertSorted (x : String) : List String → List String
  | [] => [x]
  | y :: ys => if strLe x y then x :: y :: ys else y :: insertSorted x ys

/-- Sort a list of strings ascending (insertion sort). -/
def sortStrings : List String → List String
  | [] => []
  | x :: xs => insertSorted x (sortStrings xs)

/-- The sorted list of distinct values of a string list, as the row / column
index of `pd.pivot_table` (pandas sorts both axes ascending). -/
def sortedDistinct (l : List String) : List String :=
  (sortStrings l).dedup

/-- The pivot's column labels: the distinct months among the filtered
events, chronological (ascending `YYYY-MM` string order). -/
def monthsOf (evs : List SignupEvent) : List String :=
  sortedDistinct (evs.map monthOf)

/-- The pivot's row labels: the distinct names among the filtered events. -/
def namesOf (evs : List SignupEvent) : List String :=
  sortedDistinct (evs.map (fun e => e.name))

/-- One pivot cell: `aggfunc='count'` of `uid` over the events of a given
name in a given month (`fill_value=0` when there are none). -/
def countFor (evs : List SignupEvent) (name month : String) : Nat :=
  (evs.filter (fun e => e.name == name && monthOf e == month)).length

/-- One pivot row: the cells of a name across the month columns. -/
def pivotRow (evs : List SignupEvent) (name : String) : List Nat :=
  (monthsOf evs).map (fun mo => countFor evs name mo)

/-- `pivot['合計'] = pivot.sum(axis=1)`: the row-wise total. -/
def rowTotal (evs : List SignupEvent) (name : String) : Nat :=
  (pivotRow evs name).sum

/-- The header row of `pivot.to_csv()`: the index name `name`, the month
column labels, then the total column label `合計`. -/
def csvHeader (evs : List SignupEvent) : List String :=
  "name" :: monthsOf evs ++ ["合計"]

/-- Join a list of cells with commas (one CSV line, without terminator). -/
def joinComma : List String → String
  | [] => ""
  | [x] => x
  | x :: y :: xs => x ++ "," ++ joinComma (y :: xs)

/-- `pivot.to_csv()`: the header line then one line per distinct name, each
terminated by a newline. -/
def csvTextOf (evs : List SignupEvent) : String :=
  joinComma (csvHeader evs) ++ "\n" ++
    String.join ((namesOf evs).map (fun n =>
      joinComma (n :: (pivotRow evs n).map toString ++
        [toString (rowTotal evs n)]) ++ "\n"))

/-- The byte-order mark prepended by `encode('utf-8-sig')`, viewed at the
text level as the character U+FEFF. -/
def BOM : String := String.mk [Char.ofNat 0xFEFF]

/-- `str(d)` for a Python `date`: ISO `YYYY-MM-DD`, zero-padded. -/
def isoDate (d : Date) : String :=
  toString d.y ++ "-" ++ pad2 d.m ++ "-" ++ pad2 d.d

/-- What a successful aggregation renders and offers for download. -/
structure AggResult where
  header : List String
  rows : List (String × List Nat × Nat)
  csvData : String
  fileName : String
deriving DecidableEq, Repr

/-- `perform_aggregation` (app.py lines 314-342): scan all events and
day-status docs, filter, and if nothing matched show a warning and return
with no table and no download; otherwise pivot by (name, month), append the
`合計` total column, and offer the UTF-8-with-BOM CSV under
`shift_report_<start>_to_<end>.csv`. -/
def perform_aggregation (s : Store) (start_date end_date : Date) :
    Option AggResult :=
  let fe := filteredEvents s start_date end_date
  if fe.isEmpty then none
  else some
    { header := csvHeader fe,
      rows := (namesOf fe).map (fun n => (n, pivotRow fe n, rowTotal fe n)),
      csvData := BOM ++ csvTextOf fe,
      fileName := "shift_report_" ++ isoDate start_date ++ "_to_" ++
        isoDate end_date ++ ".csv" }

/-- Modelled from the spec: the list of `YYYY-MM` months of the requested
range, first to last.  This follows the spec's words ("one column per
`YYYY-MM` in range") for comparison against the header the code actually
produces; it corresponds to no function in `app.py`. -/
def monthsInRange (a b : Date) : List String :=
  (List.range (b.y * 12 + (b.m - 1) - (a.y * 12 + (a.m - 1)) + 1)).map
    (fun i => monthString ((a.y * 12 + (a.m - 1) + i) / 12)
      ((a.y * 12 + (a.m - 1) + i) % 12 + 1))

/-! ### Session lifecycle of the retention sweep (app.py lines 345-358) -/

/-- The per-browser-session state relevant to the sweep: the
`st.session_state` flag `cleanup_done`, the store, and a ghost counter of
how many times `cleanup_old_board_messages` has run in this session. -/
structure AppSession where
  cleanup_done : Bool
  store : Store
  sweeps : Nat
deriving DecidableEq, Repr

/-- One execution of the script body (a page load or any rerun triggered by
an interaction), restricted to its sweep effect (app.py lines 351-353):
`if 'cleanup_done' not in st.session_state: cleanup_old_board_messages();
st.session_state.cleanup_done = True`. -/
def pageLoad (now : Int) (a : AppSession) : AppSession :=
  if a.cleanup_done then a
  else
    { cleanup_done := true,
      store := cleanup_old_board_messages a.store now,
      sweeps := a.sweeps + 1 }

/-- A whole session: the initial `st.session_state` has no `cleanup_done`
key, and then the script body runs once per load/interaction. -/
def runSession (s : Store) : List Int → AppSession
  | [] => { cleanup_done := false, store := s, sweeps := 0 }
  | now :: rest => pageLoad now (runSession s rest)

/-! ### The self-service name gate (app.py lines 94-110) -/

/-- `name.replace(" ", "").replace("　", "")` (app.py line 107): removing
every occurrence of a single-character pattern is filtering that character
out, first the ASCII space, then the full-width space U+3000. -/
def stripName (name : String) : String :=
  String.mk (((name.toList.filter (fun c => !(c == ' '))).filter
    (fun c => !(c == '　'))))

/-- The name form submit (app.py lines 105-110): when submitted with a
non-empty name, store the stripped name in `st.session_state.user_name`;
otherwise the session name is unchanged. -/
def submitName (current raw : String) (submitted : Bool) : String :=
  if submitted && !(raw == "") then stripName raw else current

/-! ### Concrete fixtures used to instantiate the theorems -/

/-- A held day-status document for a given month. -/
def heldDoc (month_id : String) : DayStatus :=
  { isHeld := true, month_id := month_id }

/-- The three events of the spec's aggregation example. -/
def evAlice0305 : SignupEvent :=
  { date := "2024-03-05", month_id := "2024-03", name := "alice", uid := 1 }

def evBob0306 : SignupEvent :=
  { date := "2024-03-06", month_id := "2024-03", name := "bob", uid := 2 }

def evAlice0401 : SignupEvent :=
  { date := "2024-04-01", month_id := "2024-04", name := "alice", uid := 3 }

/-- The store of the spec's aggregation example: the three events, all
three dates marked held. -/
def aggDemoStore : Store :=
  { events := [(1, evAlice0305), (2, evBob0306), (3, evAlice0401)],
    dayStatus := [("2024-03-05", heldDoc "2024-03"),
                  ("2024-03-06", heldDoc "2024-03"),
                  ("2024-04-01", heldDoc "2024-04")],
    monthLocks := [],
    board := [] }

/-- The requested aggregation range `2024-03-01 .. 2024-04-30`. -/
def aggStart : Date := ⟨2024, 3, 1⟩

def aggEnd : Date := ⟨2024, 4, 30⟩

/-- A store whose only event lies inside the range but on a date never
marked held. -/
def notHeldStore : Store :=
  { events := [(1, evAlice0305)], dayStatus := [], monthLocks := [],
    board := [] }

/-- A store whose only (held) event is in March, although the requested
range extends through April. -/
def marchOnlyStore : Store :=
  { events := [(1, evAlice0305)],
    dayStatus := [("2024-03-05", heldDoc "2024-03")],
    monthLocks := [],
    board := [] }

/-- A store with a held, unlocked day `2024-03-05` carrying one signup by
alice. -/
def dupDemoStore : Store :=
  { events := [(1, evAlice0305)],
    dayStatus := [("2024-03-05", heldDoc "2024-03")],
    monthLocks := [],
    board := [] }

/-- A store whose day `2024-03-05` is held and already carries
`MAX_SHIFTS_PER_DAY` signups. -/
def fullDayStore : Store :=
  { events := [(1, evAlice0305),
               (2, { date := "2024-03-05", month_id := "2024-03",
                     name := "bob", uid := 4 }),
               (3, { date := "2024-03-05", month_id := "2024-03",
                     name := "carol", uid := 5 })],
    dayStatus := [("2024-03-05", heldDoc "2024-03")],
    monthLocks := [],
    board := [] }

/-- A store whose month `2024-03` is locked, with one signup and one held
day in it. -/
def lockedStore : Store :=
  { events := [(1, evAlice0305)],
    dayStatus := [("2024-03-05", heldDoc "2024-03")],
    monthLocks := [("2024-03", true)],
    board := [] }

/-- The sweep instant used by the retention fixtures (seconds). -/
def sweepNow : Int := 100 * 86400

/-- A board message posted 15 days before `sweepNow`. -/
def msg15 : BoardMessage :=
  { month_id := "2024-03", name := "alice", message := "fifteen days old",
    timestamp := sweepNow - 15 * 86400 }

/-- A board message posted exactly 14 days before `sweepNow`. -/
def msg14 : BoardMessage :=
  { month_id := "2024-03", name := "alice", message := "fourteen days old",
    timestamp := sweepNow - 14 * 86400 }

/-- A board message posted 13 days before `sweepNow`. -/
def msg13 : BoardMessage :=
  { month_id := "2024-03", name := "alice", message := "thirteen days old",
    timestamp := sweepNow - 13 * 86400 }

/-- A stale board message owned by a different month than the one on
screen. -/
def msgOtherMonth : BoardMessage :=
  { month_id := "2023-11", name := "bob", message := "other month, stale",
    timestamp := sweepNow - 120 * 86400 }

/-- A store holding the four retention fixtures. -/
def boardStore : Store :=
  { events := [], dayStatus := [], monthLocks := [],
    board := [msg15, msg14, msg13, msgOtherMonth] }

/-! ## Helper lemmas -/

theorem countOn_addEvent (s : Store) (i : Nat) (ev : SignupEvent)
    (d : String) :
    countOn (addEvent s i ev) d
      = countOn s d + (if ev.date == d then 1 else 0) := by
  unfold countOn dayEvents addEvent
  rw [List.filter_append, List.length_append]
  cases h : (ev.date == d) <;> simp [h]

theorem isMonthLocked_addEvent (s : Store) (i : Nat) (ev : SignupEvent)
    (mid : String) :
    isMonthLocked (addEvent s i ev) mid = isMonthLocked s mid := rfl

/-- Dichotomy of the self-service add: either nothing happens, or every
guard passed and exactly one event (named after the session user) was
appended. -/
theorem selfAdd_spec (s : Store) (mid : String) (day : Nat) (un : String)
    (i u : Nat) :
    selfAdd s mid day un i u = s ∨
    (isHeld s (dateStr mid day) = true ∧ isMonthLocked s mid = false ∧
      countOn s (dateStr mid day) < MAX_SHIFTS_PER_DAY ∧
      isAlreadyIn (dayEvents s (dateStr mid day)) un = false ∧
      selfAdd s mid day un i u = addEvent s i
        { date := dateStr mid day, month_id := mid, name := un, uid := u }) := by
  by_cases h1 : isHeld s (dateStr mid day) = true
  case neg =>
    rw [Bool.not_eq_true] at h1
    left; simp [selfAdd, h1]
  by_cases h2 : isMonthLocked s mid = false
  case neg =>
    rw [Bool.not_eq_false] at h2
    left; simp [selfAdd, h2]
  by_cases h3 : countOn s (dateStr mid day) < MAX_SHIFTS_PER_DAY
  case neg => left; simp [selfAdd, h1, h2, h3]
  by_cases h4 : isAlreadyIn (dayEvents s (dateStr mid day)) un = true
  case neg =>
    rw [Bool.not_eq_true] at h4
    right
    exact ⟨h1, h2, h3, h4, by simp [selfAdd, h1, h2, h3, h4]⟩
  left; simp [selfAdd, h1, h2, h3, h4]

/-- Dichotomy of the admin proxy-add: either nothing happens, or the
held/unlocked/capacity/non-empty-name guards passed and exactly one event
under the typed name was appended — with no duplicate-name condition
anywhere. -/
theorem adminAdd_spec (s : Store) (mid : String) (day : Nat) (pn : String)
    (i u : Nat) :
    adminAdd s mid day pn i u = s ∨
    (isHeld s (dateStr mid day) = true ∧ isMonthLocked s mid = false ∧
      countOn s (dateStr mid day) < MAX_SHIFTS_PER_DAY ∧
      (pn == "") = false ∧
      adminAdd s mid day pn i u = addEvent s i
        { date := dateStr mid day, month_id := mid, name := pn, uid := u }) := by
  by_cases h1 : isHeld s (dateStr mid day) = true
  case neg =>
    rw [Bool.not_eq_true] at h1
    left; simp [adminAdd, h1]
  by_cases h2 : isMonthLocked s mid = false
  case neg =>
    rw [Bool.not_eq_false] at h2
    left; simp [adminAdd, h2]
  by_cases h3 : countOn s (dateStr mid day) < MAX_SHIFTS_PER_DAY
  case neg => left; simp [adminAdd, h1, h2, h3]
  by_cases h4 : (pn == "") = true
  case neg =>
    rw [Bool.not_eq_true] at h4
    right
    exact ⟨h1, h2, h3, h4, by simp [adminAdd, h1, h2, h3, h4]⟩
  left; simp [adminAdd, h1, h2, h3, h4]

theorem lookup_none_of_fresh (l : List (Nat × SignupEvent)) (i : Nat)
    (h : ∀ p ∈ l, p.1 ≠ i) : l.lookup i = none := by
  induction l with
  | nil => rfl
  | cons p t ih =>
    obtain ⟨k, v⟩ := p
    have hk : (i == k) = false := by
      have := h (k, v) (List.mem_cons_self _ _)
      simp [Ne.symm this]
    rw [List.lookup_cons, hk]
    exact ih (fun q hq => h q (List.mem_cons_of_mem _ hq))

theorem lookup_append_fresh (l : List (Nat × SignupEvent)) (i : Nat)
    (ev : SignupEvent) (h : ∀ p ∈ l, p.1 ≠ i) :
    (l ++ [(i, ev)]).lookup i = some ev := by
  induction l with
  | nil => simp [List.lookup_cons]
  | cons p t ih =>
    obtain ⟨k, v⟩ := p
    have hk : (i == k) = false := by
      have := h (k, v) (List.mem_cons_self _ _)
      simp [Ne.symm this]
    rw [List.cons_append, List.lookup_cons, hk]
    exact ih (fun q hq => h q (List.mem_cons_of_mem _ hq))

theorem filter_append_fresh (l : List (Nat × SignupEvent)) (i : Nat)
    (ev : SignupEvent) (h : ∀ p ∈ l, p.1 ≠ i) :
    (l ++ [(i, ev)]).filter (fun e => !(e.1 == i)) = l := by
  rw [List.filter_append]
  have h1 : l.filter (fun e => !(e.1 == i)) = l :=
    List.filter_eq_self.mpr (fun a ha => by simp [h a ha])
  have h2 : ([(i, ev)] : List (Nat × SignupEvent)).filter
      (fun e => !(e.1 == i)) = [] := by simp
  rw [h1, h2, List.append_nil]

theorem isMonthLocked_toggleLock (s : Store) (mid : String) :
    isMonthLocked (toggleLock s mid true) mid = !isMonthLocked s mid := by
  simp [toggleLock, isMonthLocked, setDoc, List.lookup]

theorem mem_insertSorted (x y : String) (l : List String) :
    y ∈ insertSorted x l ↔ y = x ∨ y ∈ l := by
  induction l with
  | nil => simp [insertSorted]
  | cons a t ih =>
    unfold insertSorted
    by_cases h : strLe x a = true
    · simp only [h, if_true, List.mem_cons]
    · rw [Bool.not_eq_true] at h
      simp only [h, Bool.false_eq_true, if_false, List.mem_cons, ih]
      tauto

theorem mem_sortStrings (x : String) (l : List String) :
    x ∈ sortStrings l ↔ x ∈ l := by
  induction l with
  | nil => simp [sortStrings]
  | cons a t ih => simp [sortStrings, mem_insertSorted, ih]

theorem mem_sortedDistinct (x : String) (l : List String) :
    x ∈ sortedDistinct l ↔ x ∈ l := by
  simp [sortedDistinct, List.mem_dedup, mem_sortStrings]

/-- Membership in the aggregation filter, spelt out. -/
theorem mem_filteredEvents (s : Store) (a b : Date) (e : SignupEvent) :
    e ∈ filteredEvents s a b ↔
      e ∈ s.events.map Prod.snd ∧
      ∃ dt, strptimeDate e.date = some dt ∧ dateLe a dt = true ∧
        dateLe dt b = true ∧ isHeld s e.date = true := by
  unfold filteredEvents
  rw [List.mem_filter]
  constructor
  · rintro ⟨hm, hp⟩
    refine ⟨hm, ?_⟩
    cases hd : strptimeDate e.date with
    | none => rw [hd] at hp; simp at hp
    | some dt =>
      rw [hd] at hp
      simp only [Bool.and_eq_true] at hp
      exact ⟨dt, rfl, hp.1.1, hp.1.2, hp.2⟩
  · rintro ⟨hm, dt, hd, h1, h2, h3⟩
    refine ⟨hm, ?_⟩
    rw [hd]
    simp [h1, h2, h3]

theorem strptimeDate_month_bounds (str : String) (dt : Date)
    (h : strptimeDate str = some dt) : 1 ≤ dt.m ∧ dt.m ≤ 12 := by
  unfold strptimeDate at h
  split at h
  · split at h
    · split at h
      · rename_i hcond
        injection h with h'
        subst h'
        simp only [Bool.and_eq_true, decide_eq_true_eq] at hcond
        exact ⟨hcond.1.1.1, hcond.1.1.2⟩
      · exact absurd h (by simp)
    all_goals exact absurd h (by simp)
  · exact absurd h (by simp)

theorem dateLe_iff (a b : Date) :
    dateLe a b = true ↔
      (a.y < b.y ∨ (a.y = b.y ∧ (a.m < b.m ∨ (a.m = b.m ∧ a.d ≤ b.d)))) := by
  unfold dateLe
  simp [Bool.or_eq_true, Bool.and_eq_true, decide_eq_true_eq]

theorem monthString_mem_monthsInRange (a b dt : Date)
    (ham : a.m ≤ 12) (hbm : 1 ≤ b.m) (hm1 : 1 ≤ dt.m) (hm2 : dt.m ≤ 12)
    (h1 : dateLe a dt = true) (h2 : dateLe dt b = true) :
    monthString dt.y dt.m ∈ monthsInRange a b := by
  rw [dateLe_iff] at h1 h2
  have key1 : a.y * 12 + a.m ≤ dt.y * 12 + dt.m := by
    rcases h1 with h | ⟨he, h⟩
    · omega
    · rcases h with h | ⟨he2, _⟩ <;> omega
  have key2 : dt.y * 12 + dt.m ≤ b.y * 12 + b.m := by
    rcases h2 with h | ⟨he, h⟩
    · omega
    · rcases h with h | ⟨he2, _⟩ <;> omega
  unfold monthsInRange
  apply List.mem_map.mpr
  refine ⟨dt.y * 12 + (dt.m - 1) - (a.y * 12 + (a.m - 1)), ?_, ?_⟩
  · apply List.mem_range.mpr
    omega
  · have e1 : a.y * 12 + (a.m - 1) +
        (dt.y * 12 + (dt.m - 1) - (a.y * 12 + (a.m - 1)))
          = dt.y * 12 + (dt.m - 1) := by omega
    rw [e1]
    have e2 : (dt.y * 12 + (dt.m - 1)) / 12 = dt.y := by omega
    have e3 : (dt.y * 12 + (dt.m - 1)) % 12 + 1 = dt.m := by omega
    rw [e2, e3]

theorem runSession_inv (s : Store) (loads : List Int) :
    (runSession s loads).sweeps ≤ 1 ∧
      ((runSession s loads).cleanup_done = false →
        (runSession s loads).sweeps = 0) := by
  induction loads with
  | nil => simp [runSession]
  | cons now rest ih =>
    unfold runSession pageLoad
    by_cases h : (runSession s rest).cleanup_done = true
    · rw [if_pos h]
      exact ih
    · rw [Bool.not_eq_true] at h
      have hz := ih.2 h
      rw [if_neg (by simp [h])]
      simp [hz]

/-! ## Claim theorems -/

/-- C1: for every date, after any add operation (self-service or admin
proxy) the number of signup events on that date is at most
`MAX_SHIFTS_PER_DAY` (3): the target day's count stays within the cap
whenever it was within it before, every other day's count is untouched,
and at a count of exactly 3 both kinds of add are rejected outright — the
cap is absolute, binding the admin as well. -/
theorem C1_capacity_invariant (s : Store) (mid : String) (day : Nat)
    (un pn : String) (i1 u1 i2 u2 : Nat)
    (h : countOn s (dateStr mid day) ≤ MAX_SHIFTS_PER_DAY) :
    (countOn (selfAdd s mid day un i1 u1) (dateStr mid day)
        ≤ MAX_SHIFTS_PER_DAY
      ∧ countOn (adminAdd s mid day pn i2 u2) (dateStr mid day)
        ≤ MAX_SHIFTS_PER_DAY)
    ∧ (∀ d, d ≠ dateStr mid day →
        countOn (selfAdd s mid day un i1 u1) d = countOn s d
          ∧ countOn (adminAdd s mid day pn i2 u2) d = countOn s d)
    ∧ (countOn s (dateStr mid day) = MAX_SHIFTS_PER_DAY →
        selfAdd s mid day un i1 u1 = s ∧ adminAdd s mid day pn i2 u2 = s) := by
  have hbne : ∀ d : String, d ≠ dateStr mid day →
      ((dateStr mid day == d) = false) := by
    intro d hd
    simp [Ne.symm hd]
  rcases selfAdd_spec s mid day un i1 u1 with hs | ⟨_, _, hslt, _, hseq⟩ <;>
    rcases adminAdd_spec s mid day pn i2 u2 with ha | ⟨_, _, halt, _, haeq⟩
  · exact ⟨⟨by rw [hs]; exact h, by rw [ha]; exact h⟩,
      fun d _ => ⟨by rw [hs], by rw [ha]⟩,
      fun _ => ⟨hs, ha⟩⟩
  · refine ⟨⟨by rw [hs]; exact h, ?_⟩, fun d hd => ⟨by rw [hs], ?_⟩, ?_⟩
    · rw [haeq, countOn_addEvent]
      simp only [beq_self_eq_true, if_true]
      unfold MAX_SHIFTS_PER_DAY at halt ⊢; omega
    · rw [haeq, countOn_addEvent, hbne d hd]
      simp
    · intro hmax
      rw [hmax] at halt
      exact absurd halt (by omega)
  · refine ⟨⟨?_, by rw [ha]; exact h⟩, fun d hd => ⟨?_, by rw [ha]⟩, ?_⟩
    · rw [hseq, countOn_addEvent]
      simp only [beq_self_eq_true, if_true]
      unfold MAX_SHIFTS_PER_DAY at hslt ⊢; omega
    · rw [hseq, countOn_addEvent, hbne d hd]
      simp
    · intro hmax
      rw [hmax] at hslt
      exact absurd hslt (by omega)
  · refine ⟨⟨?_, ?_⟩, fun d hd => ⟨?_, ?_⟩, ?_⟩
    · rw [hseq, countOn_addEvent]
      simp only [beq_self_eq_true, if_true]
      unfold MAX_SHIFTS_PER_DAY at hslt ⊢; omega
    · rw [haeq, countOn_addEvent]
      simp only [beq_self_eq_true, if_true]
      unfold MAX_SHIFTS_PER_DAY at halt ⊢; omega
    · rw [hseq, countOn_addEvent, hbne d hd]
      simp
    · rw [haeq, countOn_addEvent, hbne d hd]
      simp
    · intro hmax
      rw [hmax] at hslt
      exact absurd hslt (by omega)

theorem C1_capacity_invariant_witness :
    countOn fullDayStore (dateStr "2024-03" 5) ≤ MAX_SHIFTS_PER_DAY ∧
    ((countOn (selfAdd fullDayStore "2024-03" 5 "dave" 10 10)
        (dateStr "2024-03" 5) ≤ MAX_SHIFTS_PER_DAY
      ∧ countOn (adminAdd fullDayStore "2024-03" 5 "erin" 11 11)
        (dateStr "2024-03" 5) ≤ MAX_SHIFTS_PER_DAY)
    ∧ (∀ d, d ≠ dateStr "2024-03" 5 →
        countOn (selfAdd fullDayStore "2024-03" 5 "dave" 10 10) d
            = countOn fullDayStore d
          ∧ countOn (adminAdd fullDayStore "2024-03" 5 "erin" 11 11) d
            = countOn fullDayStore d)
    ∧ (countOn fullDayStore (dateStr "2024-03" 5) = MAX_SHIFTS_PER_DAY →
        selfAdd fullDayStore "2024-03" 5 "dave" 10 10 = fullDayStore
          ∧ adminAdd fullDayStore "2024-03" 5 "erin" 11 11 = fullDayStore)) :=
  ⟨by decide,
    C1_capacity_invariant fullDayStore "2024-03" 5 "dave" "erin" 10 10 11 11
      (by decide)⟩

/-- C2: while a month's lock flag is true every mutation scoped to that
month is a no-op regardless of actor — self-service add, admin proxy-add,
signup removal, per-day held toggle and bulletin-board post — while the
admin lock toggle itself still flips the lock, from either state. -/
theorem C2_month_lock_blocks (s : Store) (mid un pn nm msgText : String)
    (day docId i u : Nat) (adminMode newHeld : Bool) (ts : Int)
    (h : isMonthLocked s mid = true) :
    selfAdd s mid day un i u = s
    ∧ adminAdd s mid day pn i u = s
    ∧ removeShift s mid un adminMode docId = s
    ∧ toggleHeld s mid day adminMode newHeld = s
    ∧ postMessage s mid nm msgText ts = s
    ∧ isMonthLocked (toggleLock s mid true) mid = false
    ∧ isMonthLocked (toggleLock (toggleLock s mid true) mid true) mid
        = true := by
  refine ⟨by simp [selfAdd, h], by simp [adminAdd, h], ?_,
    by simp [toggleHeld, h], by simp [postMessage, h], ?_, ?_⟩
  · unfold removeShift
    cases hl : s.events.lookup docId with
    | none => rfl
    | some ev => simp [h]
  · rw [isMonthLocked_toggleLock, h]
    rfl
  · rw [isMonthLocked_toggleLock, isMonthLocked_toggleLock, h]
    rfl

theorem C2_month_lock_blocks_witness :
    isMonthLocked lockedStore "2024-03" = true ∧
    (selfAdd lockedStore "2024-03" 5 "alice" 9 9 = lockedStore
    ∧ adminAdd lockedStore "2024-03" 5 "bob" 9 9 = lockedStore
    ∧ removeShift lockedStore "2024-03" "alice" true 1 = lockedStore
    ∧ toggleHeld lockedStore "2024-03" 6 true true = lockedStore
    ∧ postMessage lockedStore "2024-03" "alice" "hello" 0 = lockedStore
    ∧ isMonthLocked (toggleLock lockedStore "2024-03" true) "2024-03" = false
    ∧ isMonthLocked
        (toggleLock (toggleLock lockedStore "2024-03" true) "2024-03" true)
        "2024-03" = true) :=
  ⟨by decide,
    C2_month_lock_blocks lockedStore "2024-03" "alice" "bob" "alice" "hello"
      5 1 9 9 true true 0 (by decide)⟩

/-- C3: a self-service add is a no-op whenever some existing signup on that
date carries the current user's name, even though the day is held, the
month unlocked and the capacity not reached; an admin proxy-add performs no
such check and appends a signup under a name already present on that
date. -/
theorem C3_duplicate_guard (s : Store) (mid : String) (day : Nat)
    (un pn : String) (i1 u1 i2 u2 : Nat)
    (hheld : isHeld s (dateStr mid day) = true)
    (hlock : isMonthLocked s mid = false)
    (hcap : countOn s (dateStr mid day) < MAX_SHIFTS_PER_DAY)
    (hdup : isAlreadyIn (dayEvents s (dateStr mid day)) un = true)
    (hpn : (pn == "") = false)
    (hpndup : isAlreadyIn (dayEvents s (dateStr mid day)) pn = true) :
    selfAdd s mid day un i1 u1 = s
    ∧ (adminAdd s mid day pn i2 u2).events
        = s.events ++
          [(i2, { date := dateStr mid day, month_id := mid, name := pn, uid := u2 })] := by
  constructor
  · simp [selfAdd, hheld, hlock, hcap, hdup]
  · simp [adminAdd, hheld, hlock, hcap, hpn, addEvent]

theorem C3_duplicate_guard_witness :
    (isHeld dupDemoStore (dateStr "2024-03" 5) = true
      ∧ isMonthLocked dupDemoStore "2024-03" = false
      ∧ countOn dupDemoStore (dateStr "2024-03" 5) < MAX_SHIFTS_PER_DAY
      ∧ isAlreadyIn (dayEvents dupDemoStore (dateStr "2024-03" 5)) "alice"
          = true) ∧
    (selfAdd dupDemoStore "2024-03" 5 "alice" 7 7 = dupDemoStore
    ∧ (adminAdd dupDemoStore "2024-03" 5 "alice" 8 8).events
        = dupDemoStore.events ++
          [(8, { date := dateStr "2024-03" 5, month_id := "2024-03", name := "alice", uid := 8 })]) :=
  ⟨⟨by decide, by decide, by decide, by decide⟩,
    C3_duplicate_guard dupDemoStore "2024-03" 5 "alice" "alice" 7 7 8 8
      (by decide) (by decide) (by decide) (by decide) (by decide) (by decide)⟩

/-- C7: adding a signup and then removing that very signup (by its fresh
document id) restores the event list — in particular every day's event
count — to its pre-add value. -/
theorem C7_add_remove_roundtrip (s : Store) (mid : String) (day : Nat)
    (un : String) (i u : Nat) (adminMode : Bool)
    (hfresh : ∀ p ∈ s.events, p.1 ≠ i) :
    (removeShift (selfAdd s mid day un i u) mid un adminMode i).events
        = s.events
    ∧ ∀ d, countOn (removeShift (selfAdd s mid day un i u) mid un adminMode i)
        d = countOn s d := by
  have main : (removeShift (selfAdd s mid day un i u) mid un adminMode
      i).events = s.events := by
    rcases selfAdd_spec s mid day un i u with hs | ⟨_, hlock, _, _, hseq⟩
    · rw [hs]
      unfold removeShift
      rw [lookup_none_of_fresh s.events i hfresh]
    · have hl : (addEvent s i
          { date := dateStr mid day, month_id := mid, name := un, uid := u }).events.lookup i
            = some { date := dateStr mid day, month_id := mid, name := un, uid := u } :=
        lookup_append_fresh s.events i _ hfresh
      rw [hseq]
      simp only [removeShift, hl]
      rw [if_pos (by simp [isMonthLocked_addEvent, hlock])]
      exact filter_append_fresh s.events i _ hfresh
  refine ⟨main, fun d => ?_⟩
  unfold countOn dayEvents
  rw [main]

/-- C4: aggregation keeps an event iff its date parses, lies in the
inclusive range `[start, end]`, and that date's held flag is true; an
in-range event on a date never marked held is excluded.  On the spec's
example — events (alice, 2024-03-05), (bob, 2024-03-06), (alice, 2024-04-01),
all held, range 2024-03-01..2024-04-30 — the pivot yields alice: march 1,
april 1, total 2 and bob: march 1, april 0, total 1. -/
theorem C4_aggregation_filter :
    (∀ (s : Store) (a b : Date) (e : SignupEvent),
      e ∈ filteredEvents s a b ↔
        e ∈ s.events.map Prod.snd ∧
        ∃ dt, strptimeDate e.date = some dt ∧ dateLe a dt = true ∧
          dateLe dt b = true ∧ isHeld s e.date = true)
    ∧ filteredEvents notHeldStore aggStart aggEnd = []
    ∧ countFor (filteredEvents aggDemoStore aggStart aggEnd) "alice"
        "2024-03" = 1
    ∧ countFor (filteredEvents aggDemoStore aggStart aggEnd) "alice"
        "2024-04" = 1
    ∧ rowTotal (filteredEvents aggDemoStore aggStart aggEnd) "alice" = 2
    ∧ countFor (filteredEvents aggDemoStore aggStart aggEnd) "bob"
        "2024-03" = 1
    ∧ countFor (filteredEvents aggDemoStore aggStart aggEnd) "bob"
        "2024-04" = 0
    ∧ rowTotal (filteredEvents aggDemoStore aggStart aggEnd) "bob" = 1 :=
  ⟨mem_filteredEvents, by decide⟩

/-- C5: the sweep at its boundary: the 15-day-old message and the stale
other-month message are deleted and the 13-day-old one survives, but the
message whose age is exactly 14 days also survives, because the code
filters on `timestamp < now - timedelta(weeks=2)` strictly — although the
claim (and the function's own docstring, `投稿から2週間以上経過した…`,
i.e. "two weeks *or more*") demands deletion at age ≥ 14 days. -/
theorem C5_sweep_boundary :
    (cleanup_old_board_messages boardStore sweepNow).board = [msg14, msg13]
    ∧ sweepNow - msg14.timestamp = twoWeeksSeconds := by decide

/-- C6 counterexample: for the range 2024-03-01..2024-04-30 with a single
kept March event, the rendered header is `name, 2024-03, 合計`: the
in-range month 2024-04 gets no column, and no column is labelled `total`
— refuting "one column per YYYY-MM month in the requested range, then a
trailing `total` column". -/
theorem C6_header_counterexample :
    "2024-04" ∈ monthsInRange aggStart aggEnd
    ∧ (perform_aggregation marchOnlyStore aggStart aggEnd).map
        (fun r => r.header) = some ["name", "2024-03", "合計"]
    ∧ "2024-04" ∉ ["name", "2024-03", "合計"]
    ∧ "total" ∉ ["name", "2024-03", "合計"] := by decide

/-- C6 (amended): the export is UTF-8 with a byte-order mark; the header
row is the `name` column, then one column per `YYYY-MM` month having at
least one kept event — every such month lies in the requested range, but
an in-range month with no kept event gets no column — chronologically
ordered, then a trailing total column labelled `合計`; each data row is
one distinct person with integer counts; and the download filename is
exactly `shift_report_<start>_to_<end>.csv`. -/
theorem C6_csv_export (s : Store) (a b : Date)
    (ham : a.m ≤ 12) (hbm : 1 ≤ b.m)
    (h : filteredEvents s a b ≠ []) :
    ∃ r, perform_aggregation s a b = some r
      ∧ r.header = "name" :: monthsOf (filteredEvents s a b) ++ ["合計"]
      ∧ (∀ mo ∈ monthsOf (filteredEvents s a b), mo ∈ monthsInRange a b)
      ∧ r.rows = (namesOf (filteredEvents s a b)).map
          (fun n => (n, pivotRow (filteredEvents s a b) n,
            rowTotal (filteredEvents s a b) n))
      ∧ r.csvData = BOM ++ csvTextOf (filteredEvents s a b)
      ∧ r.fileName = "shift_report_" ++ isoDate a ++ "_to_" ++ isoDate b
          ++ ".csv" := by
  have hne : (filteredEvents s a b).isEmpty = false := by
    cases he : (filteredEvents s a b).isEmpty
    · rfl
    · exact absurd (List.isEmpty_iff.mp he) h
  have hpa : perform_aggregation s a b = some
      ⟨csvHeader (filteredEvents s a b),
        (namesOf (filteredEvents s a b)).map
          (fun n => (n, pivotRow (filteredEvents s a b) n,
            rowTotal (filteredEvents s a b) n)),
        BOM ++ csvTextOf (filteredEvents s a b),
        "shift_report_" ++ isoDate a ++ "_to_" ++ isoDate b ++ ".csv"⟩ := by
    simp [perform_aggregation, hne]
  refine ⟨_, hpa, rfl, ?_, rfl, rfl, rfl⟩
  intro mo hmo
  rw [monthsOf, mem_sortedDistinct] at hmo
  obtain ⟨e, he, hmoeq⟩ := List.mem_map.mp hmo
  obtain ⟨_, dt, hparse, h1, h2, _⟩ := (mem_filteredEvents s a b e).mp he
  obtain ⟨hm1, hm2⟩ := strptimeDate_month_bounds _ _ hparse
  subst hmoeq
  simp only [monthOf, hparse]
  exact monthString_mem_monthsInRange a b dt ham hbm hm1 hm2 h1 h2

theorem C6_csv_export_witness :
    (aggStart.m ≤ 12 ∧ 1 ≤ aggEnd.m
      ∧ filteredEvents marchOnlyStore aggStart aggEnd ≠ []) ∧
    (∃ r, perform_aggregation marchOnlyStore aggStart aggEnd = some r
      ∧ r.header = "name" ::
          monthsOf (filteredEvents marchOnlyStore aggStart aggEnd) ++ ["合計"]
      ∧ (∀ mo ∈ monthsOf (filteredEvents marchOnlyStore aggStart aggEnd),
          mo ∈ monthsInRange aggStart aggEnd)
      ∧ r.rows = (namesOf (filteredEvents marchOnlyStore aggStart aggEnd)).map
          (fun n => (n, pivotRow (filteredEvents marchOnlyStore aggStart aggEnd) n,
            rowTotal (filteredEvents marchOnlyStore aggStart aggEnd) n))
      ∧ r.csvData = BOM ++ csvTextOf (filteredEvents marchOnlyStore aggStart aggEnd)
      ∧ r.fileName = "shift_report_" ++ isoDate aggStart ++ "_to_"
          ++ isoDate aggEnd ++ ".csv") :=
  ⟨⟨by decide, by decide, by decide⟩,
    C6_csv_export marchOnlyStore aggStart aggEnd (by decide) (by decide)
      (by decide)⟩

/-- C8: the retention sweep runs at most once per browser session: the
script body is guarded by the `cleanup_done` session flag, so over any
sequence of page loads and interactions in one session the number of
`cleanup_old_board_messages` invocations never exceeds one. -/
theorem C8_sweep_once_per_session (s : Store) (loads : List Int) :
    (runSession s loads).sweeps ≤ 1 :=
  (runSession_inv s loads).1

/-- C9: the aggregation renders no table and offers no download exactly
when no event passes the range-and-held filter (and, being a pure read, it
changes no state in any case). -/
theorem C9_empty_aggregation_stops (s : Store) (a b : Date) :
    perform_aggregation s a b = none ↔ filteredEvents s a b = [] := by
  constructor
  · intro h
    by_cases he : (filteredEvents s a b).isEmpty = true
    · exact List.isEmpty_iff.mp he
    · rw [Bool.not_eq_true] at he
      simp [perform_aggregation, he] at h
  · intro h
    simp [perform_aggregation, h]

/-- C10: the name gate strips every ASCII and full-width space before
storing the session display name, while an admin proxy-add stores the
typed name verbatim — so a proxy-added name containing a space never
equals a gate-stored name, and the duplicate guard comparing the two is
always false. -/
theorem C10_name_gate (current raw pname dst mid : String) (u : Nat)
    (submitted : Bool)
    (hc1 : ' ' ∉ current.toList) (hc2 : '　' ∉ current.toList)
    (hsp : ' ' ∈ pname.toList ∨ '　' ∈ pname.toList) :
    (' ' ∉ (submitName current raw submitted).toList
      ∧ '　' ∉ (submitName current raw submitted).toList)
    ∧ pname ≠ submitName current raw submitted
    ∧ isAlreadyIn
        [(u, { date := dst, month_id := mid, name := pname, uid := u })]
        (submitName current raw submitted) = false
    ∧ ∀ (s : Store) (day i2 u2 : Nat),
        (adminAdd s mid day pname i2 u2).events = s.events
        ∨ (adminAdd s mid day pname i2 u2).events = s.events ++
            [(i2, { date := dateStr mid day, month_id := mid, name := pname, uid := u2 })] := by
  have hstrip : ∀ r : String,
      ' ' ∉ (stripName r).toList ∧ '　' ∉ (stripName r).toList := by
    intro r
    constructor
    · intro hmem
      simp [stripName, List.mem_filter] at hmem
    · intro hmem
      simp [stripName, List.mem_filter] at hmem
  have hnos : ' ' ∉ (submitName current raw submitted).toList
      ∧ '　' ∉ (submitName current raw submitted).toList := by
    unfold submitName
    by_cases hc : (submitted && !(raw == "")) = true
    · rw [if_pos hc]
      exact hstrip raw
    · rw [Bool.not_eq_true] at hc
      rw [if_neg (by simp [hc])]
      exact ⟨hc1, hc2⟩
  have hneq : pname ≠ submitName current raw submitted := by
    intro heq
    rw [heq] at hsp
    rcases hsp with hsp | hsp
    · exact hnos.1 hsp
    · exact hnos.2 hsp
  refine ⟨hnos, hneq, ?_, ?_⟩
  · simp [isAlreadyIn, hneq]
  · intro s day i2 u2
    rcases adminAdd_spec s mid day pname i2 u2 with ha | ⟨_, _, _, _, haeq⟩
    · exact Or.inl (by rw [ha])
    · exact Or.inr (by rw [haeq]; rfl)

theorem C10_name_gate_witness :
    (' ' ∉ ("" : String).toList ∧ '　' ∉ ("" : String).toList
      ∧ ' ' ∈ "yamada taro".toList
      ∧ '　' ∈ "山田　太郎".toList
      ∧ submitName "" "yamada taro" true = "yamadataro"
      ∧ submitName "" "山田　太郎" true = "山田太郎") ∧
    ((' ' ∉ (submitName "" "yamada taro" true).toList
        ∧ '　' ∉ (submitName "" "yamada taro" true).toList)
    ∧ "yamada taro" ≠ submitName "" "yamada taro" true
    ∧ isAlreadyIn
        [(1, { date := "2024-03-05", month_id := "2024-03", name := "yamada taro", uid := 1 })]
        (submitName "" "yamada taro" true) = false
    ∧ ∀ (s : Store) (day i2 u2 : Nat),
        (adminAdd s "2024-03" day "yamada taro" i2 u2).events = s.events
        ∨ (adminAdd s "2024-03" day "yamada taro" i2 u2).events = s.events ++
            [(i2, { date := dateStr "2024-03" day, month_id := "2024-03", name := "yamada taro", uid := u2 })]) ∧
    ((' ' ∉ (submitName "" "山田　太郎" true).toList
        ∧ '　' ∉ (submitName "" "山田　太郎" true).toList)
    ∧ "山田　太郎" ≠ submitName "" "山田　太郎" true
    ∧ isAlreadyIn
        [(2, { date := "2024-03-05", month_id := "2024-03", name := "山田　太郎", uid := 2 })]
        (submitName "" "山田　太郎" true) = false
    ∧ ∀ (s : Store) (day i2 u2 : Nat),
        (adminAdd s "2024-03" day "山田　太郎" i2 u2).events = s.events
        ∨ (adminAdd s "2024-03" day "山田　太郎" i2 u2).events = s.events ++
            [(i2, { date := dateStr "2024-03" day, month_id := "2024-03", name := "山田　太郎", uid := u2 })]) :=
  ⟨⟨by decide, by decide, by decide, by decide, by decide, by decide⟩,
    C10_name_gate "" "yamada taro" "yamada taro" "2024-03-05" "2024-03" 1
      true (by decide) (by decide) (by decide),
    C10_name_gate "" "山田　太郎" "山田　太郎" "2024-03-05" "2024-03" 2
      true (by decide) (by decide) (by decide)⟩

theorem C7_add_remove_roundtrip_witness :
    (∀ p ∈ dupDemoStore.events, p.1 ≠ 42) ∧
    ((removeShift (selfAdd dupDemoStore "2024-03" 6 "carol" 42 42) "2024-03"
        "carol" false 42).events = dupDemoStore.events
    ∧ ∀ d, countOn (removeShift (selfAdd dupDemoStore "2024-03" 6 "carol"
        42 42) "2024-03" "carol" false 42) d = countOn dupDemoStore d) :=
  ⟨by decide,
    C7_add_remove_roundtrip dupDemoStore "2024-03" 6 "carol" 42 42 false
      (by decide)⟩

end AsaKatsu
